import Mathlib

/-!
Shallow embedding of the subtitle generator `src/script.py`.

The core of the program (the part the claims are about) is:
  * `format_timestamp` (script.py lines 43-55): seconds → `HH:MM:SS,mmm`,
  * `is_meaningful` (lines 58-63): the meaningfulness filter,
  * `write_srt` (lines 57-83): the filtering / repeat-suppression /
    numbering loop that serializes cues,
  * the tail of `main` (lines 169-176): the empty-transcription check.

Python floats are modelled by exact rationals (`ℚ`); text by Lean `String`
with explicitly defined Python-semantics helpers (`strip`, `lower`, `len`)
over the underlying character list, so everything evaluates in the kernel.
-/

namespace Script

/-- Characters Python's `str.strip()` removes (ASCII whitespace). -/
def pyWhitespace (c : Char) : Bool :=
  c = ' ' || c = '\t' || c = '\n' || c = '\r' || c = '\x0b' || c = '\x0c'

/-- `l` with leading and trailing whitespace characters removed. -/
def stripData (l : List Char) : List Char :=
  ((l.dropWhile pyWhitespace).reverse.dropWhile pyWhitespace).reverse

/-- Python `text.strip()`. -/
def pyStrip (s : String) : String := ⟨stripData s.data⟩

/-- Python `text.lower()` (character-wise lowering; agrees on ASCII). -/
def pyLower (s : String) : String := ⟨s.data.map Char.toLower⟩

/-- Python `len(text)`: number of characters. -/
def pyLen (s : String) : Nat := s.data.length

/-- Truthiness of the Python variable `prev_text : Optional[str]`:
`None` and the empty string are falsy. -/
def pyTruthy : Option String → Bool
  | none => false
  | some s => if s = "" then false else true

/-- One recognizer segment: `seg.start`, `seg.end`, `seg.text`
(`stop` models the Python attribute `end`, a Lean keyword). -/
structure Segment where
  start : Option ℚ
  stop : Option ℚ
  text : Option String
deriving DecidableEq

/-- Python `f"{n:02d}"`. -/
def pad2 (n : Nat) : String := if n < 10 then "0" ++ toString n else toString n

/-- Python `f"{n:03d}"`. -/
def pad3 (n : Nat) : String :=
  if n < 10 then "00" ++ toString n
  else if n < 100 then "0" ++ toString n
  else toString n

/-- Lines 44-48 of `format_timestamp`: `seconds = 0` when `None`,
`td = timedelta(seconds=max(0, seconds))`,
`total_ms = int(td.total_seconds() * 1000)`.
In exact arithmetic the `timedelta` round trip is the identity on seconds,
and Python `int()` truncates toward zero, which on the clamped
(non-negative) value is the floor. -/
def total_msOf (seconds : Option ℚ) : Nat :=
  (⌊(max 0 (seconds.getD 0)) * 1000⌋).toNat

/-- `format_timestamp` (script.py lines 43-55). -/
def format_timestamp (seconds : Option ℚ) : String :=
  let total_ms := total_msOf seconds
  let hrs := total_ms / 3600000
  let rem := total_ms % 3600000
  let mins := rem / 60000
  let rem2 := rem % 60000
  let secs := rem2 / 1000
  let ms := rem2 % 1000
  pad2 hrs ++ ":" ++ pad2 mins ++ ":" ++ pad2 secs ++ "," ++ pad3 ms

/-- The literal filler list of script.py line 61:
`["aaaa.", "hmm.", "mmm.", "...", "..."]` — note `"..."` occurs twice;
there is no two-dot entry in the source. -/
def fillerList : List String := ["aaaa.", "hmm.", "mmm.", "...", "..."]

/-- `is_meaningful` (script.py lines 58-63). -/
def is_meaningful (text : String) : Bool :=
  if text = "" ∨ pyLen (pyStrip text) < 3 then false
  else if pyLower (pyStrip text) ∈ fillerList then false
  else true

/-- One serialized cue block, before rendering: the written index,
the two formatted timestamps, and the trimmed text. -/
structure Cue where
  idx : Nat
  start : String
  stop : String
  text : String
deriving DecidableEq

/-- The cue `write_srt` emits for segment `seg` at enumerate position `i`
(script.py lines 68-70 and 83). -/
def mkCue (i : Nat) (seg : Segment) : Cue :=
  ⟨i, format_timestamp seg.start, format_timestamp seg.stop,
   pyStrip (seg.text.getD "")⟩

/-- The loop state of `write_srt`: `prev_text` and `repeat_count`
(script.py lines 65-66). -/
structure WState where
  prev_text : Option String
  repeat_count : Nat
deriving DecidableEq

/-- The body of the `write_srt` loop for one segment (script.py lines
67-83): returns the new state, the cue written (if any), and the repeat
warning printed (if any, identified by the repeated text). -/
def step (st : WState) (i : Nat) (seg : Segment) :
    WState × Option Cue × Option String :=
  let text := pyStrip (seg.text.getD "")
  if is_meaningful text = false then (st, none, none)
  else if pyTruthy st.prev_text = true ∧ st.prev_text = some text then
    let rc := st.repeat_count + 1
    let warn : Option String := if rc = 3 then some text else none
    if 3 ≤ rc then (⟨st.prev_text, rc⟩, none, warn)
    else (⟨some text, rc⟩, some (mkCue i seg), warn)
  else (⟨some text, 0⟩, some (mkCue i seg), none)

/-- The `write_srt` loop from enumerate position `i` and state `st`:
the cues written, the warnings printed, and the final state. -/
def write_srtAux (i : Nat) (st : WState) :
    List Segment → List Cue × List String × WState
  | [] => ([], [], st)
  | seg :: rest =>
    let r := step st i seg
    let r2 := write_srtAux (i + 1) r.1 rest
    (r.2.1.toList ++ r2.1, r.2.2.toList ++ r2.2.1, r2.2.2)

/-- The cues `write_srt segments` writes (script.py lines 57-83;
`enumerate(segments, start=1)` and initial state `None`, `0`). -/
def write_srtCues (segments : List Segment) : List Cue :=
  (write_srtAux 1 ⟨none, 0⟩ segments).1

/-- The repeat warnings `write_srt segments` prints, each identified by
its repeated text (script.py line 77). -/
def write_srtWarnings (segments : List Segment) : List String :=
  (write_srtAux 1 ⟨none, 0⟩ segments).2.1

/-- The rendering of one cue block,
`f"{i}\n{start} --> {end}\n{text}\n\n"` (script.py line 83). -/
def renderCue (c : Cue) : String :=
  toString c.idx ++ "\n" ++ c.start ++ " --> " ++ c.stop ++ "\n" ++
    c.text ++ "\n\n"

/-- The full document `write_srt` leaves in the output file. -/
def write_srtDoc (segments : List Segment) : String :=
  String.join ((write_srtCues segments).map renderCue)

/-- I/O events on the output sink. -/
inductive FileEvent where
  | openW : FileEvent
  | write : String → FileEvent
  | close : FileEvent
deriving DecidableEq

/-- The ordered I/O trace of `write_srt` on the output path: the
`with open(out_path, "w", ...)` (line 64) opens-for-writing before the
loop runs, each emitted cue is one `f.write` (line 83), and leaving the
`with` block closes the file. -/
def write_srtTrace (segments : List Segment) : List FileEvent :=
  FileEvent.openW ::
    ((write_srtCues segments).map (fun c => FileEvent.write (renderCue c)) ++
      [FileEvent.close])

/-- Outcome of `main` after transcription (script.py lines 169-176). -/
inductive MainResult where
  | noSpeech : MainResult
  | success : String → MainResult
deriving DecidableEq

/-- The tail of `main` (script.py lines 169-176): if `collected` is empty,
print the "no speech detected" message and `sys.exit(3)`; otherwise call
`write_srt` and report success. -/
def mainAfterTranscribe (collected : List Segment) : MainResult :=
  if collected = [] then MainResult.noSpeech
  else MainResult.success (write_srtDoc collected)

/-- Segment with text `"OK."` (timestamps absent). -/
def okSeg : Segment := ⟨none, none, some "OK."⟩

/-- Segment with filler text `"Hmm."`. -/
def hmmSeg : Segment := ⟨none, none, some "Hmm."⟩

/-- Segment with meaningful text `"Hello."`. -/
def helloSeg : Segment := ⟨none, none, some "Hello."⟩

/-- Segment with 2-character text `"Hi"` (fails the length filter). -/
def hiSeg : Segment := ⟨none, none, some "Hi"⟩

/-- Segment with 2-character text `"A."`. -/
def aSeg : Segment := ⟨none, none, some "A."⟩

/-- Segment with 2-character text `"B."`. -/
def bSeg : Segment := ⟨none, none, some "B."⟩

/-- Segment with meaningful text `"AA."`. -/
def aaSeg : Segment := ⟨none, none, some "AA."⟩

/-- Segment with meaningful text `"BB."`. -/
def bbSeg : Segment := ⟨none, none, some "BB."⟩

/-- A meaningful text is nonempty (the `not text` guard of
`is_meaningful` rejects the empty string). -/
lemma meaningful_ne_empty (t : String) (hm : is_meaningful t = true) :
    t ≠ "" := by
  intro he
  subst he
  simp [is_meaningful] at hm

/-- Character-wise lowering preserves the character count. -/
lemma pyLen_pyLower (s : String) : pyLen (pyLower s) = pyLen s := by
  simp [pyLen, pyLower]

/-- A segment that fails the meaningfulness filter is skipped: no cue, no
warning, and the loop state is untouched (the `continue` on line 72
precedes every state update). -/
lemma step_not_meaningful (st : WState) (i : Nat) (seg : Segment)
    (h : is_meaningful (pyStrip (seg.text.getD "")) = false) :
    step st i seg = (st, none, none) := by
  simp [step, h]

/-- A meaningful segment whose trimmed text differs from `prev_text` (or
arrives with `prev_text` unset/falsy) takes the `else` branch: the repeat
count resets to 0, `prev_text` is set, and the cue is written. -/
lemma step_fresh (seg : Segment) (t : String)
    (hts : pyStrip (seg.text.getD "") = t) (hm : is_meaningful t = true)
    (st : WState) (i : Nat) (hprev : st.prev_text ≠ some t) :
    step st i seg = (⟨some t, 0⟩, some (mkCue i seg), none) := by
  simp [step, hts, hm, hprev]

/-- A meaningful segment whose trimmed text equals the (truthy)
`prev_text` increments the repeat count; it is written only while the new
count stays below 3, and the single warning fires when the count hits
exactly 3. -/
lemma step_repeat (seg : Segment) (t : String)
    (hts : pyStrip (seg.text.getD "") = t) (hm : is_meaningful t = true)
    (i rc : Nat) :
    step ⟨some t, rc⟩ i seg =
      (⟨some t, rc + 1⟩,
       if 3 ≤ rc + 1 then none else some (mkCue i seg),
       if rc + 1 = 3 then some t else none) := by
  have hne := meaningful_ne_empty t hm
  by_cases h3 : 3 ≤ rc + 1 <;> by_cases hw : rc + 1 = 3 <;>
    simp [step, hts, hm, pyTruthy, hne, h3, hw]

/-- Shifting a cons of cues into a `List.range` map. -/
lemma mkCue_range_shift (seg : Segment) (i j : Nat) :
    mkCue i seg :: (List.range j).map (fun k => mkCue (i + 1 + k) seg) =
      (List.range (j + 1)).map (fun k => mkCue (i + k) seg) := by
  rw [List.range_succ_eq_map]
  simp only [List.map_cons, List.map_map, Nat.add_zero]
  refine congrArg (mkCue i seg :: ·) ?_
  apply List.map_congr_left
  intro k _
  simp only [Function.comp]
  congr 1
  omega

/-- Processing `m` further copies of a segment of (meaningful) trimmed
text `t` from a state whose `prev_text` is already `t` and whose repeat
count is `rc`: each copy increments the count, copies are written only
while the incremented count stays below 3, and the warning fires exactly
when the count passes through 3. -/
lemma write_srtAux_inRun (seg : Segment) (t : String)
    (hts : pyStrip (seg.text.getD "") = t) (hm : is_meaningful t = true) :
    ∀ (m i rc : Nat),
      write_srtAux i ⟨some t, rc⟩ (List.replicate m seg) =
        ((List.range (min m (2 - rc))).map (fun k => mkCue (i + k) seg),
         if rc < 3 ∧ 3 ≤ rc + m then [t] else [],
         ⟨some t, rc + m⟩) := by
  intro m
  induction m with
  | zero =>
    intro i rc
    rw [if_neg (by omega)]
    simp [write_srtAux]
  | succ m ih =>
    intro i rc
    rw [List.replicate_succ]
    simp only [write_srtAux, step_repeat seg t hts hm, ih]
    simp only [Prod.mk.injEq]
    refine ⟨?_, ?_, ?_⟩
    · by_cases h2 : 2 ≤ rc
      · rw [if_pos (by omega : 3 ≤ rc + 1)]
        have e1 : 2 - (rc + 1) = 0 := by omega
        have e2 : 2 - rc = 0 := by omega
        rw [e1, e2]
        simp
      · rw [if_neg (by omega : ¬ 3 ≤ rc + 1)]
        have e : min (m + 1) (2 - rc) = min m (2 - (rc + 1)) + 1 := by omega
        rw [e]
        simpa using mkCue_range_shift seg i (min m (2 - (rc + 1)))
    · split_ifs with h1 h2 h3 <;> simp_all <;> omega
    · simp only [WState.mk.injEq, true_and]
      omega

/-- A maximal run: processing `n` copies of a segment with meaningful
trimmed text `t` from any state whose `prev_text` is not `t` (the state
at the start of a maximal run of `t`): the first `min n 3` copies are
written as cues, exactly one warning fires and only when the run reaches
its 4th copy, and the final state carries `t` with repeat count `n - 1`. -/
lemma write_srtAux_run (seg : Segment) (t : String)
    (hts : pyStrip (seg.text.getD "") = t) (hm : is_meaningful t = true)
    (i : Nat) (st : WState) (hprev : st.prev_text ≠ some t) :
    ∀ n : Nat,
      write_srtAux i st (List.replicate n seg) =
        ((List.range (min n 3)).map (fun k => mkCue (i + k) seg),
         if 4 ≤ n then [t] else [],
         if n = 0 then st else ⟨some t, n - 1⟩) := by
  intro n
  cases n with
  | zero => simp [write_srtAux]
  | succ m =>
    rw [List.replicate_succ]
    simp only [write_srtAux, step_fresh seg t hts hm st i hprev,
      write_srtAux_inRun seg t hts hm]
    simp only [Prod.mk.injEq]
    refine ⟨?_, ?_, ?_⟩
    · have e : min (m + 1) 3 = min m 2 + 1 := by omega
      rw [e]
      simpa using mkCue_range_shift seg i (min m 2)
    · split_ifs with h1 h2 <;> simp_all
      omega
    · rw [if_neg (by omega : ¬ m + 1 = 0)]
      simp

/-- Whenever `step` writes a cue for segment `seg` at enumerate position
`i`, that cue is exactly `mkCue i seg` (line 83 writes `i`, the formatted
timestamps, and the trimmed text). -/
lemma step_cue_eq (st : WState) (i : Nat) (seg : Segment) (c : Cue)
    (h : (step st i seg).2.1 = some c) : c = mkCue i seg := by
  simp only [step] at h
  split at h
  · simp at h
  · split at h
    · split at h
      · simp at h
      · simp at h
        exact h.symm
    · simp at h
      exact h.symm

/-- Every cue emitted from enumerate position `i` onward has index ≥ `i`. -/
lemma write_srtAux_idx_ge (segs : List Segment) :
    ∀ (i : Nat) (st : WState) (c : Cue),
      c ∈ (write_srtAux i st segs).1 → i ≤ c.idx := by
  induction segs with
  | nil =>
    intro i st c h
    simp [write_srtAux] at h
  | cons seg rest ih =>
    intro i st c h
    simp only [write_srtAux, List.mem_append] at h
    rcases h with h | h
    · rcases ho : (step st i seg).2.1 with _ | c2
      · rw [ho] at h
        simp at h
      · rw [ho] at h
        simp at h
        subst h
        rw [step_cue_eq st i seg c ho]
        exact Nat.le_refl i
    · have := ih (i + 1) (step st i seg).1 c h
      omega

/-- Every emitted cue carries the enumerate position of its source
segment: the segment at offset `c.idx - i` of the remaining input is its
source, and the cue is exactly `mkCue` of it. -/
lemma write_srtAux_src (segs : List Segment) :
    ∀ (i : Nat) (st : WState) (c : Cue),
      c ∈ (write_srtAux i st segs).1 →
      ∃ src, segs.get? (c.idx - i) = some src ∧ c = mkCue c.idx src := by
  induction segs with
  | nil =>
    intro i st c h
    simp [write_srtAux] at h
  | cons seg rest ih =>
    intro i st c h
    simp only [write_srtAux, List.mem_append] at h
    rcases h with h | h
    · rcases ho : (step st i seg).2.1 with _ | c2
      · rw [ho] at h
        simp at h
      · rw [ho] at h
        simp at h
        subst h
        have hc := step_cue_eq st i seg c ho
        have hidx : c.idx = i := by rw [hc]; rfl
        refine ⟨seg, ?_, ?_⟩
        · rw [hidx, Nat.sub_self]
          rfl
        · rw [hidx, ← hc]
    · obtain ⟨src, hs, hc⟩ := ih (i + 1) (step st i seg).1 c h
      have hge := write_srtAux_idx_ge rest (i + 1) (step st i seg).1 c h
      refine ⟨src, ?_, hc⟩
      have e : c.idx - i = (c.idx - (i + 1)) + 1 := by omega
      rw [e]
      simpa using hs

/-- The emitted cue indices are strictly increasing. -/
lemma write_srtAux_pairwise (segs : List Segment) :
    ∀ (i : Nat) (st : WState),
      List.Pairwise (· < ·) ((write_srtAux i st segs).1.map Cue.idx) := by
  induction segs with
  | nil =>
    intro i st
    simp [write_srtAux]
  | cons seg rest ih =>
    intro i st
    simp only [write_srtAux, List.map_append]
    apply List.pairwise_append.mpr
    refine ⟨?_, ih (i + 1) _, ?_⟩
    · rcases ho : (step st i seg).2.1 with _ | c
      · simp
      · simp
    · intro a ha b hb
      rcases ho : (step st i seg).2.1 with _ | c
      · rw [ho] at ha
        simp at ha
      · rw [ho] at ha
        simp at ha
        have hc := step_cue_eq st i seg c ho
        simp only [List.mem_map] at hb
        obtain ⟨c2, hc2, hb⟩ := hb
        have hge := write_srtAux_idx_ge rest (i + 1) (step st i seg).1 c2 hc2
        have ha2 : a = i := by rw [ha, hc]; rfl
        omega

/-- C1: the claim demands that the written cue indices be exactly
`1..K` with no gaps, but `write_srt` writes the `enumerate` position `i`
of the source segment (line 83), so a skipped segment leaves a hole: on
the input `[hmmSeg, helloSeg]` (first segment filtered as filler) the
single emitted cue carries index 2, not 1. -/
theorem c1_index_gap_eval :
    (write_srtCues [hmmSeg, helloSeg]).map Cue.idx = [2]
    ∧ ([2] : List Nat) ≠ [1] := by decide

/-- C2 (amended): for every maximal run of consecutive meaningful
segments with identical trimmed text, `write_srt` emits the 1st, 2nd and
3rd occurrences as cues and drops the 4th and every subsequent
occurrence (the run is entered with `repeat_count` reset to 0, so the
count only reaches 3 at the 4th copy); in particular, for 5 consecutive
meaningful segments all with text `"OK."`, exactly the first 3 are
written. -/
theorem c2_run_emits_first_three :
    (∀ (seg : Segment) (t : String), pyStrip (seg.text.getD "") = t →
        is_meaningful t = true →
        ∀ (i : Nat) (st : WState), st.prev_text ≠ some t →
        ∀ n : Nat, (write_srtAux i st (List.replicate n seg)).1 =
          (List.range (min n 3)).map (fun k => mkCue (i + k) seg))
    ∧ (write_srtCues (List.replicate 5 okSeg)).map Cue.idx = [1, 2, 3] := by
  constructor
  · intro seg t hts hm i st hprev n
    rw [write_srtAux_run seg t hts hm i st hprev n]
  · simp only [write_srtCues,
      write_srtAux_run okSeg "OK." rfl (by decide) 1 ⟨none, 0⟩ (by decide) 5]
    decide

/-- C2, claim as stated is false: 5 consecutive `"OK."` segments yield 3
emitted cues, not 2. -/
theorem c2_counterexample :
    (write_srtCues (List.replicate 5 okSeg)).length = 3
    ∧ (3 : Nat) ≠ 2 := by decide

/-- Witness for `c2_run_emits_first_three` at a concrete run. -/
theorem c2_witness :
    (write_srtAux 3 ⟨some "Prev.", 2⟩ (List.replicate 5 okSeg)).1 =
      (List.range (min 5 3)).map (fun k => mkCue (3 + k) okSeg) :=
  c2_run_emits_first_three.1 okSeg "OK." rfl (by decide) 3
    ⟨some "Prev.", 2⟩ (by decide) 5

/-- C3, claim as stated is false: on the single-segment input `[hmmSeg]`
(filler text `"Hmm."`) zero cues are emitted, yet `main` does not take
the "no speech detected" exit — `collected` is nonempty, so it reports a
successfully written (empty) document. -/
theorem c3_counterexample :
    write_srtCues [hmmSeg] = []
    ∧ mainAfterTranscribe [hmmSeg] ≠ MainResult.noSpeech
    ∧ mainAfterTranscribe [hmmSeg] = MainResult.success "" := by decide

/-- C3 (amended): the distinct "no speech detected" condition (exit 3)
is reported precisely when the transcriber produced zero segments; when
segments exist but every one is filtered or suppressed, the program
reports success, having written an empty document. -/
theorem c3_no_speech_iff_empty :
    ∀ segments : List Segment,
      mainAfterTranscribe segments = MainResult.noSpeech ↔ segments = [] := by
  intro segs
  rw [mainAfterTranscribe]
  by_cases h : segs = []
  · simp [h]
  · simp [h]

/-- C4 (amended): for every maximal run of consecutive meaningful
segments with identical trimmed text, the repeat warning is produced
exactly once, and it is produced at the moment the 4th consecutive
identical occurrence is processed (when `repeat_count`, which counts
repeats after the first occurrence, reaches 3), identifying the repeated
text; runs of up to 3 occurrences produce no warning. -/
theorem c4_warning_on_fourth :
    (∀ (seg : Segment) (t : String), pyStrip (seg.text.getD "") = t →
        is_meaningful t = true →
        ∀ (i : Nat) (st : WState), st.prev_text ≠ some t →
        ∀ n : Nat, (write_srtAux i st (List.replicate n seg)).2.1 =
          if 4 ≤ n then [t] else [])
    ∧ write_srtWarnings (List.replicate 4 okSeg) = ["OK."] := by
  constructor
  · intro seg t hts hm i st hprev n
    rw [write_srtAux_run seg t hts hm i st hprev n]
  · decide

/-- C4, claim as stated is false: 3 consecutive identical `"OK."`
occurrences produce no warning at all (the warning only fires at the
4th). -/
theorem c4_counterexample :
    write_srtWarnings (List.replicate 3 okSeg) = []
    ∧ ([] : List String) ≠ ["OK."] := by decide

/-- Witness for `c4_warning_on_fourth` at a concrete run. -/
theorem c4_witness :
    (write_srtAux 1 ⟨none, 0⟩ (List.replicate 5 okSeg)).2.1 =
      if 4 ≤ 5 then ["OK."] else [] :=
  c4_warning_on_fourth.1 okSeg "OK." rfl (by decide) 1 ⟨none, 0⟩
    (by decide) 5

/-- C5: the meaningfulness filter drops a text iff it is empty, its
trimmed form is shorter than 3 characters, or its trimmed lower-cased
form equals one of `{"aaaa.", "hmm.", "mmm.", "...", ".."}`. The source
list replaces `".."` by a duplicated `"..."`, but any text whose trimmed
lower-cased form is `".."` is already dropped by the length rule, so the
drop condition is extensionally the claimed one; in particular `"Hmm."`
in any case is dropped and `"Hmmmm."` is kept. -/
theorem c5_filter_exactness :
    (∀ t : String, is_meaningful t = false ↔
        (t = "" ∨ pyLen (pyStrip t) < 3 ∨
          pyLower (pyStrip t) ∈
            (["aaaa.", "hmm.", "mmm.", "...", ".."] : List String)))
    ∧ is_meaningful "Hmm." = false
    ∧ is_meaningful "hMM." = false
    ∧ is_meaningful "Hmmmm." = true := by
  refine ⟨?_, by decide, by decide, by decide⟩
  intro t
  rw [is_meaningful]
  by_cases h1 : t = "" ∨ pyLen (pyStrip t) < 3
  · rw [if_pos h1]
    simp only [eq_self_iff_true, true_iff]
    rcases h1 with h | h
    · exact Or.inl h
    · exact Or.inr (Or.inl h)
  · rw [if_neg h1]
    push_neg at h1
    obtain ⟨h1a, h1b⟩ := h1
    by_cases h2 : pyLower (pyStrip t) ∈ fillerList
    · rw [if_pos h2]
      simp only [eq_self_iff_true, true_iff]
      refine Or.inr (Or.inr ?_)
      simp only [fillerList, List.mem_cons, List.not_mem_nil, or_false] at h2
      rcases h2 with h | h | h | h | h <;> simp [h]
    · rw [if_neg h2]
      constructor
      · intro hF
        exact absurd hF (by simp)
      · intro hr
        exfalso
        rcases hr with h | h | h
        · exact h1a h
        · omega
        · simp only [List.mem_cons, List.not_mem_nil, or_false] at h
          rcases h with h | h | h | h | h
          · exact h2 (by simp [fillerList, h])
          · exact h2 (by simp [fillerList, h])
          · exact h2 (by simp [fillerList, h])
          · exact h2 (by simp [fillerList, h])
          · have hl : pyLen (pyStrip t) = 2 := by
              rw [← pyLen_pyLower (pyStrip t), h]
              decide
            omega

/-- C6: `format_timestamp` treats `None` as 0, clamps negative input to
0, converts to whole milliseconds by truncation of `seconds * 1000`
(floor, the input being clamped non-negative), and derives the
zero-padded fields by successive division/modulo by 3600000 / 60000 /
1000; `3725.4321` formats to `"01:02:05,432"` and `None` or any negative
value to `"00:00:00,000"`. -/
theorem c6_format_timestamp_spec :
    format_timestamp none = "00:00:00,000"
    ∧ (∀ q : ℚ, q < 0 → format_timestamp (some q) = "00:00:00,000")
    ∧ (∀ q : ℚ, 0 ≤ q → (total_msOf (some q) : ℤ) = ⌊q * 1000⌋)
    ∧ format_timestamp (some (37254321 / 10000)) = "01:02:05,432" := by
  refine ⟨?_, ?_, ?_, ?_⟩
  · have h : total_msOf none = 0 := by simp [total_msOf]
    rw [format_timestamp, h]
    decide
  · intro q hq
    have h : total_msOf (some q) = 0 := by
      rw [total_msOf]
      simp only [Option.getD_some]
      rw [max_eq_left hq.le]
      simp
    rw [format_timestamp, h]
    decide
  · intro q hq
    rw [total_msOf]
    simp only [Option.getD_some]
    rw [max_eq_right hq]
    exact Int.toNat_of_nonneg (Int.floor_nonneg.mpr (mul_nonneg hq (by norm_num)))
  · have h : total_msOf (some (37254321 / 10000)) = 3725432 := by
      rw [total_msOf]
      norm_num
      rfl
    rw [format_timestamp, h]
    decide

/-- Witness for `c6_format_timestamp_spec` at concrete inputs. -/
theorem c6_witness :
    format_timestamp (some (-5)) = "00:00:00,000"
    ∧ (total_msOf (some 2) : ℤ) = ⌊(2 : ℚ) * 1000⌋ :=
  ⟨c6_format_timestamp_spec.2.1 (-5) (by norm_num),
   c6_format_timestamp_spec.2.2.1 2 (by norm_num)⟩

/-- C7, claim as stated is false: the texts `"A."` and `"B."` are only 2
characters long, so every segment of the claimed input fails the
meaningfulness filter and nothing at all is emitted — not the claimed
five cues. -/
theorem c7_counterexample :
    (write_srtCues [aSeg, aSeg, bSeg, aSeg, aSeg, aSeg]).map Cue.text ≠
      ["A.", "A.", "B.", "A.", "A."] := by decide

/-- C7 (amended): the literal input `"A.", "A.", "B.", "A.", "A.", "A."`
emits nothing (2-character texts fail the filter). For a meaningful
analogue `"AA.", "AA.", "BB.", "AA.", "AA.", "AA."` all six segments are
emitted: a differing meaningful text resets `repeat_count` to 0 and sets
`previous_text`, so the fresh `"AA."` run is counted from the start, and
a run's occurrences are only suppressed from the 4th onward — the fresh
run's 3rd occurrence (the 6th segment) is still written. -/
theorem c7_reset_behavior :
    (write_srtCues [aSeg, aSeg, bSeg, aSeg, aSeg, aSeg]).map Cue.text = []
    ∧ (write_srtCues [aaSeg, aaSeg, bbSeg, aaSeg, aaSeg, aaSeg]).map Cue.text =
        ["AA.", "AA.", "BB.", "AA.", "AA.", "AA."]
    ∧ (∀ (st : WState) (i : Nat) (seg : Segment) (t : String),
        pyStrip (seg.text.getD "") = t → is_meaningful t = true →
        st.prev_text ≠ some t →
        step st i seg = (⟨some t, 0⟩, some (mkCue i seg), none)) := by
  refine ⟨by decide, by decide, ?_⟩
  intro st i seg t hts hm hprev
  exact step_fresh seg t hts hm st i hprev

/-- Witness for `c7_reset_behavior` at a concrete differing-text step. -/
theorem c7_witness :
    step ⟨some "BB.", 0⟩ 4 aaSeg = (⟨some "AA.", 0⟩, some (mkCue 4 aaSeg), none) :=
  c7_reset_behavior.2.2 ⟨some "BB.", 0⟩ 4 aaSeg "AA." rfl (by decide) (by decide)

/-- C8: a segment whose text fails the meaningfulness filter leaves the
repeat-suppression state (`prev_text`, `repeat_count`) unchanged and
writes nothing (and prints no warning): the `continue` on line 72
precedes every state update and the write. -/
theorem c8_skip_preserves_state :
    ∀ (st : WState) (i : Nat) (seg : Segment),
      is_meaningful (pyStrip (seg.text.getD "")) = false →
      step st i seg = (st, none, none) :=
  fun st i seg h => step_not_meaningful st i seg h

/-- Witness for `c8_skip_preserves_state`: the filler segment `"Hmm."`
leaves an arbitrary concrete state untouched. -/
theorem c8_witness :
    step ⟨some "X.", 1⟩ 5 hmmSeg = (⟨some "X.", 1⟩, none, none) :=
  c8_skip_preserves_state ⟨some "X.", 1⟩ 5 hmmSeg (by decide)

/-- C9: every written cue index equals the 1-based position of its
source segment in the full input (the `enumerate` position), so the
written index sequence is strictly increasing even when it has gaps. -/
theorem c9_indices_are_input_positions :
    ∀ segments : List Segment,
      List.Pairwise (· < ·) ((write_srtCues segments).map Cue.idx)
      ∧ ∀ c ∈ write_srtCues segments, 1 ≤ c.idx
          ∧ ∃ src, segments.get? (c.idx - 1) = some src ∧ c = mkCue c.idx src := by
  intro segs
  refine ⟨write_srtAux_pairwise segs 1 ⟨none, 0⟩, ?_⟩
  intro c hc
  exact ⟨write_srtAux_idx_ge segs 1 ⟨none, 0⟩ c hc,
         write_srtAux_src segs 1 ⟨none, 0⟩ c hc⟩

/-- Witness for `c9_indices_are_input_positions`: the cue emitted for the
second segment of `[hmmSeg, helloSeg]` carries index 2 and is built from
that segment. -/
theorem c9_witness :
    1 ≤ (mkCue 2 helloSeg).idx
    ∧ ∃ src, [hmmSeg, helloSeg].get? ((mkCue 2 helloSeg).idx - 1) = some src
        ∧ mkCue 2 helloSeg = mkCue (mkCue 2 helloSeg).idx src := by
  have e : write_srtCues [hmmSeg, helloSeg] = [mkCue 2 helloSeg] := by
    simp only [write_srtCues, write_srtAux,
      step_not_meaningful ⟨none, 0⟩ 1 hmmSeg (by decide),
      step_fresh helloSeg "Hello." rfl (by decide) ⟨none, 0⟩ 2 (by decide)]
    simp
  have h : mkCue 2 helloSeg ∈ write_srtCues [hmmSeg, helloSeg] := by
    rw [e]
    exact List.mem_singleton_self _
  exact (c9_indices_are_input_positions [hmmSeg, helloSeg]).2 (mkCue 2 helloSeg) h

/-- C10: `write_srt` opens the output path for writing (creating or
truncating the file) before examining any segment — the I/O trace starts
with the open event for every input — so an input whose segments are all
filtered produces an existing zero-byte output file: the trace is just
open-then-close and the document written is empty. -/
theorem c10_open_before_segments :
    (∀ segments : List Segment,
        ∃ evs, write_srtTrace segments = FileEvent.openW :: evs)
    ∧ write_srtTrace [hmmSeg, hiSeg] = [FileEvent.openW, FileEvent.close]
    ∧ write_srtDoc [hmmSeg, hiSeg] = "" := by
  refine ⟨fun segs => ⟨_, rfl⟩, by decide, by decide⟩
end Script
